import Mathlib

/-!
Verification of the server supervisor of `plugin-fileuploader`
(src/server/server.go): the signal-to-intent translation (`signalHandler`),
the intent channels created in `RunServer`, and the restart loop (`runLoop`)
with its registration step, select branches and loop outcomes.

The pieces of the repository referenced by server.go but not contained in it
(`UploadServer.Run`/`Shutdown`/`GetStartedChan`, `Config.Load`,
`ReplaceableHandler`, `routePrefixFromBasePath`) are modelled from the spec,
each marked `Modelled from the spec:` in its doc comment. Everything else is
translated directly from server.go; line numbers in doc comments refer to it.
-/

/-- Logical control intents derived from OS signals (spec section 3). -/
inductive Intent where
  | Reload
  | Shutdown
deriving DecidableEq

/-- The three OS signal kinds subscribed by `signalHandler` via
`signal.Notify(signals, syscall.SIGHUP, syscall.SIGINT, syscall.SIGTERM)`
(server.go line 40); no other signal is delivered to the switch. -/
inductive Sig where
  | SIGHUP
  | SIGINT
  | SIGTERM
deriving DecidableEq

/-- The signal-to-intent translation performed by the switch in
`signalHandler` (server.go lines 43-53): `SIGHUP` sends on the
`reloadRequested` channel; `SIGINT` falls through to `SIGTERM`, both sending
on the `done` channel. -/
def signalIntent : Sig → Intent
  | .SIGHUP => .Reload
  | .SIGINT => .Shutdown
  | .SIGTERM => .Shutdown

/-- Outcome of a plain Go channel send `ch <- v` on a buffered channel: the
value is delivered immediately when the buffer has free space; otherwise the
sending goroutine blocks until a receiver makes space. -/
inductive SendOutcome where
  | delivered
  | blocked
deriving DecidableEq

/-- Go semantics of a plain buffered-channel send with `pending` elements
already queued and capacity `c`. -/
def chanSend (pending c : Nat) : SendOutcome :=
  if pending < c then .delivered else .blocked

/-- Capacity of the `reloadRequested` and `done` intent channels
(server.go lines 21-22: `make(chan struct\x7b\x7d, 1)`). -/
def intentChanCap : Nat := 1

/-- The send performed by `signalHandler` for one intent occurrence, on
either intent channel (server.go lines 46 and 51): a plain send on the
capacity-1 channel, with `pending` undelivered intents of that kind. -/
def signalHandlerSend (pending : Nat) : SendOutcome :=
  chanSend pending intentChanCap

/-- Result of an intent delivery as the spec describes it: delivered when
the capacity-1 buffer is free, otherwise dropped (never blocking). Stated
from the spec's words, for comparison against `signalHandlerSend`. -/
inductive SpecSendOutcome where
  | delivered
  | dropped
deriving DecidableEq

/-- The spec's claimed drop-on-full delivery semantics, for comparison. -/
def specIntentSend (pending : Nat) : SpecSendOutcome :=
  if pending < intentChanCap then .delivered else .dropped

/-- The configuration fields `runLoop` reads (server.go lines 77 and 109):
`cfg.Server.ListenAddress` and `cfg.Server.BasePath`. -/
structure Config where
  listenAddress : String
  basePath : String
deriving DecidableEq

/-- Per-iteration result of the config-refresh step (server.go lines 66-73).
Modelled from the spec: `NewConfig`/`Config.Load` are not under src/; the
loader contract is load(path) -> Config | LoadError, and on failure
execution continues with whatever config state resulted, so the iteration is
parameterised by the resulting config state `cfg` and the load error, if
any, in `loadErr`. -/
structure IterInput where
  loadErr : Option String
  cfg : Config
deriving DecidableEq

/-- Modelled from the spec: `routePrefixFromBasePath` is not under src/. The
spec requires a leading path separator ("invalid base path (e.g. empty
string where a leading separator is required)") and maps base path
`/upload` to route `/upload`, so the model accepts exactly the base paths
whose first character is the separator, verbatim. -/
def routePrefixFromBasePath (basePath : String) : Except String String :=
  match basePath.data with
  | '/' :: _ => Except.ok basePath
  | _ => Except.error "base path must begin with the path separator"

/-- True on `Except.ok`. -/
def exceptOk : Except String String → Bool
  | .ok _ => true
  | .error _ => false

/-- Faithful rendering of `strings.HasSuffix(routePrefix, "/")`
(server.go line 84): the route's last character is the separator. -/
def hasSlashSuffix (s : String) : Bool :=
  s.data.getLast? = some '/'

/-- Errors returned by `serv.Run` and forwarded on `errChan`
(server.go lines 97-102); `serverClosed` is Go's `http.ErrServerClosed`. -/
inductive GoError where
  | serverClosed
  | other (msg : String)
deriving DecidableEq

/-- The three events the select in `runLoop` can wake on
(server.go lines 115-152): an instance error from `errChan`, a reload
intent, or a shutdown intent. -/
inductive LoopEvent where
  | instanceError (e : GoError)
  | reloadRequested
  | done
deriving DecidableEq

/-- Observable actions of one `runLoop` iteration, in program order.
`handle pat` is `parentRouter.Handle(pat, replaceableHandler)`; the handler
argument is omitted because the source always passes the one
`replaceableHandler` indirection allocated before the loop (lines 58-61, 83,
85). `startInstance` is `go serv.Run(replaceableHandler)` (line 97);
`awaitStarted` is `<-serv.GetStartedChan()` (line 105). `shutdownAsync` is
the whole detached `go func` of the reload branch (lines 136-141, logging
`config_reload` then calling `serv.Shutdown()` without being awaited);
`shutdownSync` is the in-line `serv.Shutdown()` of the done branch
(line 148), which blocks until the instance's drain completes.
`wgDone` is `wg.Done()` (line 149). -/
inductive Act where
  | logConfigLoadError
  | handle (pat : String)
  | logMounted (pat : String)
  | startInstance
  | awaitStarted
  | logListening (addr : String)
  | printErr
  | logFatal
  | shutdownAsync
  | logShutdownStarted
  | shutdownSync
  | wgDone
deriving DecidableEq

/-- Result of one iteration of the `for` loop in `runLoop`, with the
actions it performed. `continueLoop` carries the registered-route set handed
to the next iteration; `exitLoop` is `return` after `wg.Done()` (done
branch); `fatalError` is `log.Fatal` (which exits the process abnormally);
`panicked` is the `panic(err)` of line 79. -/
inductive IterResult where
  | continueLoop (registered : List String) (acts : List Act)
  | exitLoop (acts : List Act)
  | fatalError (e : GoError) (acts : List Act)
  | panicked (acts : List Act)
deriving DecidableEq

/-- The actions an iteration performed, however it ended. -/
def IterResult.acts : IterResult → List Act
  | .continueLoop _ a => a
  | .exitLoop a => a
  | .fatalError _ a => a
  | .panicked a => a

/-- True exactly on `IterResult.panicked`. -/
def IterResult.isPanic : IterResult → Bool
  | .panicked _ => true
  | _ => false

/-- Actions of the config-refresh step (server.go lines 70-73): a load
failure is logged and nothing else happens to it. -/
def loadActs (inp : IterInput) : List Act :=
  match inp.loadErr with
  | some _ => [Act.logConfigLoadError]
  | none => []

/-- The registration step of server.go lines 81-91: when the route is not
in `registeredPrefixes`, record it, `Handle` it, additionally `Handle` the
variant with a trailing separator when the route does not already end in
one, and log the mount event; otherwise do nothing. Returns the updated
registered set and the actions performed. -/
def registerStep (registered : List String) (p : String) :
    List String × List Act :=
  if p ∈ registered then (registered, [])
  else
    (p :: registered,
      [Act.handle p] ++
        (if hasSlashSuffix p then [] else [Act.handle (p ++ "/")]) ++
        [Act.logMounted p])

/-- The select of server.go lines 114-153 applied to the event `ev` that
woke it. `acts` are the actions already performed earlier in the iteration
and `registered` is the set threaded to the next iteration.
Error branch: `fmt.Printf` always, then `log.Fatal` unless the error is
`http.ErrServerClosed`, in which case the loop restarts. Reload branch:
detached shutdown, restart. Done branch: log, synchronous shutdown,
`wg.Done()`, exit the loop. -/
def selectStep (registered : List String) (acts : List Act) :
    LoopEvent → IterResult
  | .instanceError e =>
      if e = GoError.serverClosed then
        .continueLoop registered (acts ++ [Act.printErr])
      else
        .fatalError e (acts ++ [Act.printErr, Act.logFatal])
  | .reloadRequested =>
      .continueLoop registered (acts ++ [Act.shutdownAsync])
  | .done =>
      .exitLoop (acts ++
        [Act.logShutdownStarted, Act.shutdownSync, Act.wgDone])

/-- One iteration of the `for` loop of `runLoop` (server.go lines 64-157):
build a fresh instance, refresh the config (logging a load failure), in
shared-router mode derive the route from the base path (panicking when it
is invalid) and run the registration step, start the instance, await the
started notification, log the listen address in standalone mode, then wake
from the select on event `ev`. -/
def runIteration (shared : Bool) (registered : List String)
    (inp : IterInput) (ev : LoopEvent) : IterResult :=
  if shared then
    match routePrefixFromBasePath inp.cfg.basePath with
    | .error _ => .panicked (loadActs inp)
    | .ok p =>
        let rs := registerStep registered p
        selectStep rs.1
          (loadActs inp ++ rs.2 ++ [Act.startInstance, Act.awaitStarted])
          ev
  else
    selectStep registered
      (loadActs inp ++
        [Act.startInstance, Act.awaitStarted,
          Act.logListening inp.cfg.listenAddress])
      ev

/-- The registered-route set an iteration hands to the next one. -/
def nextRegistered (shared : Bool) (registered : List String)
    (inp : IterInput) : List String :=
  if shared then
    match routePrefixFromBasePath inp.cfg.basePath with
    | .error _ => registered
    | .ok p => (registerStep registered p).1
  else registered

/-- The actions an iteration performs before blocking in the select:
config-failure log, registration actions (shared-router mode), instance
start, started notification, and the standalone listen log. -/
def preActs (shared : Bool) (registered : List String)
    (inp : IterInput) : List Act :=
  if shared then
    match routePrefixFromBasePath inp.cfg.basePath with
    | .error _ => loadActs inp
    | .ok p =>
        loadActs inp ++ (registerStep registered p).2 ++
          [Act.startInstance, Act.awaitStarted]
  else
    loadActs inp ++
      [Act.startInstance, Act.awaitStarted,
        Act.logListening inp.cfg.listenAddress]

/-- Whether the iteration reaches the select instead of panicking first:
always in standalone mode; in shared-router mode exactly when the base path
yields a route. The spec's `Running` state is the loop blocked in this
select. -/
def reachesSelect (shared : Bool) (inp : IterInput) : Bool :=
  !shared || exceptOk (routePrefixFromBasePath inp.cfg.basePath)

/-- How the supervisor loop (and with it `RunServer`) ends.
`stillRunning` means the supplied per-iteration oracle was exhausted with
the loop still alive; `shutdownComplete` means the done branch ran:
`wg.Done()` released the wait group, so `wg.Wait()` in `RunServer`
(server.go lines 28-35) returns and the process exits normally. -/
inductive LoopOutcome where
  | stillRunning (registered : List String)
  | shutdownComplete
  | fatal (e : GoError)
  | panicked
deriving DecidableEq

/-- The `for` loop of `runLoop`, driven by one oracle input (config state)
and one select event per iteration, accumulating the trace of all actions.
On `exitLoop` the Go function returns: later inputs are never reached and
no further instance is built. `log.Fatal` and `panic` likewise end the
process, abnormally. -/
def runLoop (shared : Bool) :
    List String → List (IterInput × LoopEvent) → LoopOutcome × List Act
  | registered, [] => (.stillRunning registered, [])
  | registered, (inp, ev) :: rest =>
    match runIteration shared registered inp ev with
    | .continueLoop r2 acts =>
        let o := runLoop shared r2 rest
        (o.1, acts ++ o.2)
    | .exitLoop acts => (.shutdownComplete, acts)
    | .fatalError e acts => (.fatal e, acts)
    | .panicked acts => (.panicked, acts)

/-- The router patterns passed to `parentRouter.Handle` in a trace. -/
def handleCalls (acts : List Act) : List String :=
  acts.filterMap fun a =>
    match a with
    | .handle s => some s
    | _ => none

/-- Modelled from the spec: `ReplaceableHandler` (the spec's
HandlerIndirection) is not under src/. The spec describes a single mutable
slot holding the current delegate handler; `swap` atomically replaces the
delegate and `delegateCall` forwards to whichever delegate was most
recently installed. Operations are atomic steps of type `IndirOp` over
handler type `α`, interleaved arbitrarily into a sequence. -/
inductive IndirOp (α : Type) where
  | swap (h : α)
  | delegateCall
deriving DecidableEq

/-- The slot value after executing a sequence of indirection operations,
starting from `slot` (`none` models the never-swapped initial state). -/
def finalSlot {α : Type} : Option α → List (IndirOp α) → Option α
  | slot, [] => slot
  | _, IndirOp.swap h :: rest => finalSlot (some h) rest
  | slot, IndirOp.delegateCall :: rest => finalSlot slot rest

/-- The delegate observed by each `delegateCall` of the sequence, in order:
always the whole value most recently installed by a `swap` (or the initial
slot), since each operation is one atomic step. -/
def observed {α : Type} : Option α → List (IndirOp α) → List (Option α)
  | _, [] => []
  | _, IndirOp.swap h :: rest => observed (some h) rest
  | slot, IndirOp.delegateCall :: rest => slot :: observed slot rest

/-- The actions the select appends after the pre-select actions, per event
(server.go lines 114-153). -/
def selectSuffix : LoopEvent → List Act
  | .instanceError e =>
      if e = GoError.serverClosed then [Act.printErr]
      else [Act.printErr, Act.logFatal]
  | .reloadRequested => [Act.shutdownAsync]
  | .done => [Act.logShutdownStarted, Act.shutdownSync, Act.wgDone]

/-- Prepend the config-load-failure log to an iteration result's actions,
leaving everything else unchanged. -/
def prependLog : IterResult → IterResult
  | .continueLoop r a => .continueLoop r (Act.logConfigLoadError :: a)
  | .exitLoop a => .exitLoop (Act.logConfigLoadError :: a)
  | .fatalError e a => .fatalError e (Act.logConfigLoadError :: a)
  | .panicked a => .panicked (Act.logConfigLoadError :: a)

/-- The select's actions are the earlier actions followed by the woken
branch's suffix. -/
theorem selectStep_acts (r : List String) (base : List Act) (ev : LoopEvent) :
    (selectStep r base ev).acts = base ++ selectSuffix ev := by
  cases ev with
  | instanceError e =>
      by_cases he : e = GoError.serverClosed <;>
        simp [selectStep, selectSuffix, IterResult.acts, he]
  | reloadRequested => rfl
  | done => rfl

/-- The select never panics. -/
theorem selectStep_not_panic (r : List String) (base : List Act)
    (ev : LoopEvent) : (selectStep r base ev).isPanic = false := by
  cases ev with
  | instanceError e =>
      by_cases he : e = GoError.serverClosed <;>
        simp [selectStep, IterResult.isPanic, he]
  | reloadRequested => rfl
  | done => rfl

/-- An action prepended to the select's earlier actions is prepended to the
result's actions. -/
theorem selectStep_cons (r : List String) (base : List Act) (ev : LoopEvent) :
    selectStep r (Act.logConfigLoadError :: base) ev
      = prependLog (selectStep r base ev) := by
  cases ev with
  | instanceError e =>
      by_cases he : e = GoError.serverClosed <;>
        simp [selectStep, prependLog, he]
  | reloadRequested => simp [selectStep, prependLog]
  | done => simp [selectStep, prependLog]

/-- The config-refresh step only ever logs the load failure. -/
theorem mem_loadActs {a : Act} {inp : IterInput} (h : a ∈ loadActs inp) :
    a = Act.logConfigLoadError := by
  unfold loadActs at h
  cases hl : inp.loadErr with
  | none => rw [hl] at h; simp at h
  | some m => rw [hl] at h; simpa using h

/-- The registration step only performs `Handle` and mount-log actions. -/
theorem mem_registerActs {a : Act} {registered : List String} {p : String}
    (h : a ∈ (registerStep registered p).2) :
    (∃ s, a = Act.handle s) ∨ ∃ s, a = Act.logMounted s := by
  unfold registerStep at h
  by_cases hp : p ∈ registered
  · simp [hp] at h
  · by_cases hs : hasSlashSuffix p <;> simp [hp, hs] at h
    · rcases h with rfl | rfl
      · exact Or.inl ⟨_, rfl⟩
      · exact Or.inr ⟨_, rfl⟩
    · rcases h with rfl | rfl | rfl
      · exact Or.inl ⟨_, rfl⟩
      · exact Or.inl ⟨_, rfl⟩
      · exact Or.inr ⟨_, rfl⟩

/-- Standalone-mode pre-select actions, unfolded. -/
theorem preActs_false (registered : List String) (inp : IterInput) :
    preActs false registered inp
      = loadActs inp ++ [Act.startInstance, Act.awaitStarted,
          Act.logListening inp.cfg.listenAddress] := rfl

/-- Shared-mode pre-select actions when the base path yields a route. -/
theorem preActs_true_ok {inp : IterInput} {p : String}
    (registered : List String)
    (hr : routePrefixFromBasePath inp.cfg.basePath = Except.ok p) :
    preActs true registered inp
      = loadActs inp ++ (registerStep registered p).2 ++
          [Act.startInstance, Act.awaitStarted] := by
  simp [preActs, hr]

/-- Standalone iteration, unfolded to the select. -/
theorem runIteration_false (registered : List String) (inp : IterInput)
    (ev : LoopEvent) :
    runIteration false registered inp ev
      = selectStep registered (preActs false registered inp) ev := rfl

/-- Shared-mode iteration when the base path yields a route. -/
theorem runIteration_true_ok {inp : IterInput} {p : String}
    (registered : List String) (ev : LoopEvent)
    (hr : routePrefixFromBasePath inp.cfg.basePath = Except.ok p) :
    runIteration true registered inp ev
      = selectStep (registerStep registered p).1
          (preActs true registered inp) ev := by
  simp [runIteration, preActs, hr]

/-- Shared-mode iteration when the base path is invalid: the `panic` of
line 79, with only the config-refresh actions performed. -/
theorem runIteration_true_error {inp : IterInput} {msg : String}
    (registered : List String) (ev : LoopEvent)
    (hr : routePrefixFromBasePath inp.cfg.basePath = Except.error msg) :
    runIteration true registered inp ev = IterResult.panicked (loadActs inp) := by
  simp [runIteration, hr]

/-- Bridge: an iteration that reaches the select is the select applied to
the pre-select actions and the updated registered set. -/
theorem runIteration_eq_selectStep (shared : Bool) (registered : List String)
    (inp : IterInput) (ev : LoopEvent) (h : reachesSelect shared inp = true) :
    runIteration shared registered inp ev
      = selectStep (nextRegistered shared registered inp)
          (preActs shared registered inp) ev := by
  cases shared with
  | false => rfl
  | true =>
    simp only [reachesSelect, Bool.not_true, Bool.false_or] at h
    cases hr : routePrefixFromBasePath inp.cfg.basePath with
    | error e => rw [hr] at h; simp [exceptOk] at h
    | ok p =>
        rw [runIteration_true_ok registered ev hr]
        simp [nextRegistered, hr]

/-- An iteration that does not reach the select has panicked on the invalid
base path, in shared-router mode. -/
theorem runIteration_no_select {shared : Bool} {inp : IterInput}
    (registered : List String) (ev : LoopEvent)
    (h : reachesSelect shared inp = false) :
    shared = true ∧ runIteration shared registered inp ev
      = IterResult.panicked (loadActs inp) := by
  cases shared with
  | false => simp [reachesSelect] at h
  | true =>
    simp only [reachesSelect, Bool.not_true, Bool.false_or] at h
    cases hr : routePrefixFromBasePath inp.cfg.basePath with
    | error e => exact ⟨rfl, runIteration_true_error registered ev hr⟩
    | ok p => rw [hr] at h; simp [exceptOk] at h

/-- The pre-select actions are only config-log, registration, start, await
and listen-log actions: none of the select branches' actions occur early. -/
theorem mem_preActs {a : Act} {shared : Bool} {registered : List String}
    {inp : IterInput} (h : a ∈ preActs shared registered inp) :
    a = Act.logConfigLoadError ∨ (∃ s, a = Act.handle s) ∨
      (∃ s, a = Act.logMounted s) ∨ a = Act.startInstance ∨
      a = Act.awaitStarted ∨ ∃ s, a = Act.logListening s := by
  cases shared with
  | false =>
    rw [preActs_false] at h
    rcases List.mem_append.mp h with h | h
    · exact Or.inl (mem_loadActs h)
    · simp at h
      rcases h with rfl | rfl | rfl
      · exact Or.inr (Or.inr (Or.inr (Or.inl rfl)))
      · exact Or.inr (Or.inr (Or.inr (Or.inr (Or.inl rfl))))
      · exact Or.inr (Or.inr (Or.inr (Or.inr (Or.inr ⟨_, rfl⟩))))
  | true =>
    cases hr : routePrefixFromBasePath inp.cfg.basePath with
    | error e =>
      unfold preActs at h
      rw [hr] at h
      simp at h
      exact Or.inl (mem_loadActs h)
    | ok p =>
      rw [preActs_true_ok registered hr] at h
      rcases List.mem_append.mp h with h | h
      · rcases List.mem_append.mp h with h | h
        · exact Or.inl (mem_loadActs h)
        · rcases mem_registerActs h with ⟨s, rfl⟩ | ⟨s, rfl⟩
          · exact Or.inr (Or.inl ⟨_, rfl⟩)
          · exact Or.inr (Or.inr (Or.inl ⟨_, rfl⟩))
      · simp at h
        rcases h with rfl | rfl
        · exact Or.inr (Or.inr (Or.inr (Or.inl rfl)))
        · exact Or.inr (Or.inr (Or.inr (Or.inr (Or.inl rfl))))

/-- None of the select branches' actions occur before the select. -/
theorem select_acts_not_mem_preActs (shared : Bool)
    (registered : List String) (inp : IterInput) :
    Act.wgDone ∉ preActs shared registered inp ∧
    Act.shutdownSync ∉ preActs shared registered inp ∧
    Act.shutdownAsync ∉ preActs shared registered inp ∧
    Act.logFatal ∉ preActs shared registered inp := by
  refine ⟨fun h => ?_, fun h => ?_, fun h => ?_, fun h => ?_⟩ <;>
    rcases mem_preActs h with h | ⟨s, h⟩ | ⟨s, h⟩ | h | h | ⟨s, h⟩ <;>
      simp at h

/-- `wg.Done` occurs in an iteration exactly when the iteration reached the
select and was woken by the shutdown intent. -/
theorem wgDone_mem_iter {shared : Bool} {reg : List String} {inp : IterInput}
    {ev : LoopEvent} :
    Act.wgDone ∈ (runIteration shared reg inp ev).acts ↔
      (reachesSelect shared inp = true ∧ ev = LoopEvent.done) := by
  cases hr : reachesSelect shared inp with
  | false =>
    rw [(runIteration_no_select reg ev hr).2]
    simp only [IterResult.acts]
    constructor
    · intro hmem; exact absurd (mem_loadActs hmem) (by simp)
    · rintro ⟨h, -⟩; cases h
  | true =>
    rw [runIteration_eq_selectStep shared reg inp ev hr, selectStep_acts]
    constructor
    · intro hmem
      rcases List.mem_append.mp hmem with hmem | hmem
      · exact absurd hmem (select_acts_not_mem_preActs shared reg inp).1
      · refine ⟨rfl, ?_⟩
        cases ev with
        | instanceError e =>
          by_cases he : e = GoError.serverClosed <;>
            simp [selectSuffix, he] at hmem
        | reloadRequested => simp [selectSuffix] at hmem
        | done => rfl
    · rintro ⟨-, rfl⟩
      simp [selectSuffix]

/-- Unfolding of the loop on an empty oracle. -/
theorem runLoop_nil (shared : Bool) (registered : List String) :
    runLoop shared registered [] = (.stillRunning registered, []) := rfl

/-- Unfolding of the loop on one more iteration. -/
theorem runLoop_cons (shared : Bool) (registered : List String)
    (inp : IterInput) (ev : LoopEvent)
    (rest : List (IterInput × LoopEvent)) :
    runLoop shared registered ((inp, ev) :: rest)
      = match runIteration shared registered inp ev with
        | .continueLoop r2 acts =>
            ((runLoop shared r2 rest).1, acts ++ (runLoop shared r2 rest).2)
        | .exitLoop acts => (.shutdownComplete, acts)
        | .fatalError e acts => (.fatal e, acts)
        | .panicked acts => (.panicked, acts) := by
  rw [runLoop]

/-- The loop's whole trace contains `wg.Done` exactly when the loop ended
with the done branch, i.e. with outcome `shutdownComplete`. -/
theorem wgDone_trace_iff (shared : Bool) :
    ∀ (inputs : List (IterInput × LoopEvent)) (reg : List String),
      ((runLoop shared reg inputs).1 = LoopOutcome.shutdownComplete ↔
        Act.wgDone ∈ (runLoop shared reg inputs).2) := by
  intro inputs
  induction inputs with
  | nil => intro reg; simp [runLoop_nil]
  | cons pr rest ih =>
    intro reg
    obtain ⟨inp, ev⟩ := pr
    rw [runLoop_cons]
    cases hi : runIteration shared reg inp ev with
    | continueLoop r2 acts =>
      have hna : Act.wgDone ∉ acts := by
        intro hmem
        have : Act.wgDone ∈ (runIteration shared reg inp ev).acts := by
          rw [hi]; exact hmem
        obtain ⟨hr, rfl⟩ := wgDone_mem_iter.mp this
        rw [runIteration_eq_selectStep shared reg inp _ hr] at hi
        simp [selectStep] at hi
      simpa [List.mem_append, hna] using ih r2
    | exitLoop acts =>
      have : Act.wgDone ∈ (runIteration shared reg inp ev).acts := by
        have h2 : reachesSelect shared inp = true ∧ ev = LoopEvent.done := by
          cases hr : reachesSelect shared inp with
          | false =>
            have := (runIteration_no_select reg ev hr).2
            rw [this] at hi; cases hi
          | true =>
            refine ⟨rfl, ?_⟩
            rw [runIteration_eq_selectStep shared reg inp ev hr] at hi
            cases ev with
            | instanceError e =>
              by_cases he : e = GoError.serverClosed <;>
                simp [selectStep, he] at hi
            | reloadRequested => simp [selectStep] at hi
            | done => rfl
        exact wgDone_mem_iter.mpr h2
      rw [hi] at this
      simpa using this
    | fatalError e acts =>
      have hna : Act.wgDone ∉ acts := by
        intro hmem
        have : Act.wgDone ∈ (runIteration shared reg inp ev).acts := by
          rw [hi]; exact hmem
        obtain ⟨hr, rfl⟩ := wgDone_mem_iter.mp this
        rw [runIteration_eq_selectStep shared reg inp _ hr] at hi
        simp [selectStep] at hi
      simp [hna]
    | panicked acts =>
      have hna : Act.wgDone ∉ acts := by
        intro hmem
        have : Act.wgDone ∈ (runIteration shared reg inp ev).acts := by
          rw [hi]; exact hmem
        obtain ⟨hr, rfl⟩ := wgDone_mem_iter.mp this
        rw [runIteration_eq_selectStep shared reg inp _ hr] at hi
        simp [selectStep] at hi
      simp [hna]

/-- The select suffix only holds the woken branch's own actions. -/
theorem mem_selectSuffix {a : Act} {ev : LoopEvent} (h : a ∈ selectSuffix ev) :
    a = Act.printErr ∨ a = Act.logFatal ∨ a = Act.shutdownAsync ∨
      a = Act.logShutdownStarted ∨ a = Act.shutdownSync ∨ a = Act.wgDone := by
  cases ev with
  | instanceError e =>
    by_cases he : e = GoError.serverClosed <;> simp [selectSuffix, he] at h <;>
      tauto
  | reloadRequested => simp [selectSuffix] at h; tauto
  | done => simp [selectSuffix] at h; tauto

/-- C1: when the select wakes on a shutdown intent (the `done` channel), the
iteration performs the synchronous `serv.Shutdown()` before `wg.Done` and
returns from `runLoop`: the whole loop ends with `shutdownComplete` and the
remaining oracle inputs are never reached, so no further instance is built.
The done branch is also the only code path whose actions contain `wg.Done`,
and a loop trace contains `wg.Done` exactly when the loop ended with
`shutdownComplete` — the only way `wg.Wait` in `RunServer` returns. -/
theorem shutdown_intent_synchronous_exit
    (shared : Bool) (registered reg2 : List String) (inp inp2 : IterInput)
    (ev2 : LoopEvent) (rest inputs : List (IterInput × LoopEvent))
    (h : reachesSelect shared inp = true) :
    runIteration shared registered inp LoopEvent.done
      = IterResult.exitLoop (preActs shared registered inp
          ++ [Act.logShutdownStarted, Act.shutdownSync, Act.wgDone])
    ∧ runLoop shared registered ((inp, LoopEvent.done) :: rest)
      = (LoopOutcome.shutdownComplete,
          preActs shared registered inp
            ++ [Act.logShutdownStarted, Act.shutdownSync, Act.wgDone])
    ∧ (Act.wgDone ∈ (runIteration shared reg2 inp2 ev2).acts →
        ev2 = LoopEvent.done)
    ∧ ((runLoop shared reg2 inputs).1 = LoopOutcome.shutdownComplete ↔
        Act.wgDone ∈ (runLoop shared reg2 inputs).2) := by
  have h1 : runIteration shared registered inp LoopEvent.done
      = IterResult.exitLoop (preActs shared registered inp
          ++ [Act.logShutdownStarted, Act.shutdownSync, Act.wgDone]) := by
    rw [runIteration_eq_selectStep shared registered inp LoopEvent.done h]
    rfl
  refine ⟨h1, ?_, ?_, wgDone_trace_iff shared inputs reg2⟩
  · rw [runLoop_cons, h1]
  · intro hm
    exact (wgDone_mem_iter.mp hm).2

/-- C1 witness at a concrete standalone configuration. -/
theorem shutdown_intent_synchronous_exit_witness :
    runIteration false [] ⟨none, ⟨"addr", "/files"⟩⟩ LoopEvent.done
      = IterResult.exitLoop (preActs false [] ⟨none, ⟨"addr", "/files"⟩⟩
          ++ [Act.logShutdownStarted, Act.shutdownSync, Act.wgDone])
    ∧ runLoop false [] [(⟨none, ⟨"addr", "/files"⟩⟩, LoopEvent.done)]
      = (LoopOutcome.shutdownComplete,
          preActs false [] ⟨none, ⟨"addr", "/files"⟩⟩
            ++ [Act.logShutdownStarted, Act.shutdownSync, Act.wgDone])
    ∧ (Act.wgDone ∈ (runIteration false [] ⟨none, ⟨"addr", "/files"⟩⟩
          LoopEvent.reloadRequested).acts →
        LoopEvent.reloadRequested = LoopEvent.done)
    ∧ ((runLoop false [] []).1 = LoopOutcome.shutdownComplete ↔
        Act.wgDone ∈ (runLoop false [] []).2) :=
  shutdown_intent_synchronous_exit false [] [] ⟨none, ⟨"addr", "/files"⟩⟩
    ⟨none, ⟨"addr", "/files"⟩⟩ LoopEvent.reloadRequested [] [] rfl

/-- C2: when the select wakes on a reload intent, the iteration's only
shutdown action is the detached asynchronous one — no synchronous drain, no
wait-group release — and the result is `continueLoop`: the loop immediately
proceeds to the next iteration, whose actions follow in the trace, building
the replacement instance without waiting for the old one's drain. -/
theorem reload_intent_async_restart
    (shared : Bool) (registered : List String) (inp : IterInput)
    (rest : List (IterInput × LoopEvent))
    (h : reachesSelect shared inp = true) :
    runIteration shared registered inp LoopEvent.reloadRequested
      = IterResult.continueLoop (nextRegistered shared registered inp)
          (preActs shared registered inp ++ [Act.shutdownAsync])
    ∧ Act.shutdownSync ∉ (runIteration shared registered inp
        LoopEvent.reloadRequested).acts
    ∧ Act.wgDone ∉ (runIteration shared registered inp
        LoopEvent.reloadRequested).acts
    ∧ runLoop shared registered ((inp, LoopEvent.reloadRequested) :: rest)
      = ((runLoop shared (nextRegistered shared registered inp) rest).1,
          (preActs shared registered inp ++ [Act.shutdownAsync])
            ++ (runLoop shared (nextRegistered shared registered inp) rest).2) := by
  have h1 : runIteration shared registered inp LoopEvent.reloadRequested
      = IterResult.continueLoop (nextRegistered shared registered inp)
          (preActs shared registered inp ++ [Act.shutdownAsync]) := by
    rw [runIteration_eq_selectStep shared registered inp _ h]
    rfl
  refine ⟨h1, ?_, ?_, ?_⟩
  · rw [h1]
    intro hm
    simp only [IterResult.acts] at hm
    rcases List.mem_append.mp hm with hm | hm
    · exact (select_acts_not_mem_preActs shared registered inp).2.1 hm
    · simp at hm
  · rw [h1]
    intro hm
    simp only [IterResult.acts] at hm
    rcases List.mem_append.mp hm with hm | hm
    · exact (select_acts_not_mem_preActs shared registered inp).1 hm
    · simp at hm
  · rw [runLoop_cons, h1]

/-- C2 witness at a concrete standalone configuration with one further
iteration supplied. -/
theorem reload_intent_async_restart_witness :
    runIteration false [] ⟨none, ⟨"addr", "/files"⟩⟩ LoopEvent.reloadRequested
      = IterResult.continueLoop (nextRegistered false [] ⟨none, ⟨"addr", "/files"⟩⟩)
          (preActs false [] ⟨none, ⟨"addr", "/files"⟩⟩ ++ [Act.shutdownAsync])
    ∧ Act.shutdownSync ∉ (runIteration false [] ⟨none, ⟨"addr", "/files"⟩⟩
        LoopEvent.reloadRequested).acts
    ∧ Act.wgDone ∉ (runIteration false [] ⟨none, ⟨"addr", "/files"⟩⟩
        LoopEvent.reloadRequested).acts
    ∧ runLoop false [] [(⟨none, ⟨"addr", "/files"⟩⟩, LoopEvent.reloadRequested),
        (⟨none, ⟨"addr", "/files"⟩⟩, LoopEvent.done)]
      = ((runLoop false (nextRegistered false [] ⟨none, ⟨"addr", "/files"⟩⟩)
            [(⟨none, ⟨"addr", "/files"⟩⟩, LoopEvent.done)]).1,
          (preActs false [] ⟨none, ⟨"addr", "/files"⟩⟩ ++ [Act.shutdownAsync])
            ++ (runLoop false (nextRegistered false [] ⟨none, ⟨"addr", "/files"⟩⟩)
                  [(⟨none, ⟨"addr", "/files"⟩⟩, LoopEvent.done)]).2) :=
  reload_intent_async_restart false [] ⟨none, ⟨"addr", "/files"⟩⟩
    [(⟨none, ⟨"addr", "/files"⟩⟩, LoopEvent.done)] rfl

/-- C3: an `http.ErrServerClosed` on the failure channel is expected — the
iteration returns `continueLoop` and the loop proceeds to rebuild the next
instance — while any other error makes the iteration end in `log.Fatal`,
terminating the whole process abnormally with outcome `fatal e`. -/
theorem instance_error_classification
    (shared : Bool) (registered : List String) (inp : IterInput) (e : GoError)
    (rest : List (IterInput × LoopEvent))
    (h : reachesSelect shared inp = true) (he : e ≠ GoError.serverClosed) :
    runIteration shared registered inp
        (LoopEvent.instanceError GoError.serverClosed)
      = IterResult.continueLoop (nextRegistered shared registered inp)
          (preActs shared registered inp ++ [Act.printErr])
    ∧ runLoop shared registered
        ((inp, LoopEvent.instanceError GoError.serverClosed) :: rest)
      = ((runLoop shared (nextRegistered shared registered inp) rest).1,
          (preActs shared registered inp ++ [Act.printErr])
            ++ (runLoop shared (nextRegistered shared registered inp) rest).2)
    ∧ runIteration shared registered inp (LoopEvent.instanceError e)
      = IterResult.fatalError e
          (preActs shared registered inp ++ [Act.printErr, Act.logFatal])
    ∧ (runLoop shared registered
        ((inp, LoopEvent.instanceError e) :: rest)).1 = LoopOutcome.fatal e := by
  have h1 : runIteration shared registered inp
      (LoopEvent.instanceError GoError.serverClosed)
      = IterResult.continueLoop (nextRegistered shared registered inp)
          (preActs shared registered inp ++ [Act.printErr]) := by
    rw [runIteration_eq_selectStep shared registered inp _ h]
    simp [selectStep]
  have h2 : runIteration shared registered inp (LoopEvent.instanceError e)
      = IterResult.fatalError e
          (preActs shared registered inp ++ [Act.printErr, Act.logFatal]) := by
    rw [runIteration_eq_selectStep shared registered inp _ h]
    simp [selectStep, he]
  refine ⟨h1, ?_, h2, ?_⟩
  · rw [runLoop_cons, h1]
  · rw [runLoop_cons, h2]

/-- C3 witness at a concrete standalone configuration and a concrete other
error. -/
theorem instance_error_classification_witness :
    runIteration false [] ⟨none, ⟨"addr", "/files"⟩⟩
        (LoopEvent.instanceError GoError.serverClosed)
      = IterResult.continueLoop (nextRegistered false [] ⟨none, ⟨"addr", "/files"⟩⟩)
          (preActs false [] ⟨none, ⟨"addr", "/files"⟩⟩ ++ [Act.printErr])
    ∧ runLoop false []
        [(⟨none, ⟨"addr", "/files"⟩⟩, LoopEvent.instanceError GoError.serverClosed)]
      = ((runLoop false (nextRegistered false [] ⟨none, ⟨"addr", "/files"⟩⟩) []).1,
          (preActs false [] ⟨none, ⟨"addr", "/files"⟩⟩ ++ [Act.printErr])
            ++ (runLoop false (nextRegistered false [] ⟨none, ⟨"addr", "/files"⟩⟩) []).2)
    ∧ runIteration false [] ⟨none, ⟨"addr", "/files"⟩⟩
        (LoopEvent.instanceError (GoError.other "listen failed"))
      = IterResult.fatalError (GoError.other "listen failed")
          (preActs false [] ⟨none, ⟨"addr", "/files"⟩⟩ ++ [Act.printErr, Act.logFatal])
    ∧ (runLoop false []
        [(⟨none, ⟨"addr", "/files"⟩⟩,
          LoopEvent.instanceError (GoError.other "listen failed"))]).1
      = LoopOutcome.fatal (GoError.other "listen failed") :=
  instance_error_classification false [] ⟨none, ⟨"addr", "/files"⟩⟩
    (GoError.other "listen failed") [] rfl (by simp)

/-- C5: in shared-router mode an invalid base path makes the iteration
panic — terminating the process abnormally — before the instance start
action and before anything else beyond the config-refresh log; the loop's
outcome is `panicked`. routePrefixFromBasePath is modelled from the spec. -/
theorem invalid_base_path_fatal
    (registered : List String) (inp : IterInput) (ev : LoopEvent)
    (msg : String) (rest : List (IterInput × LoopEvent))
    (h : routePrefixFromBasePath inp.cfg.basePath = Except.error msg) :
    runIteration true registered inp ev = IterResult.panicked (loadActs inp)
    ∧ Act.startInstance ∉ (runIteration true registered inp ev).acts
    ∧ (runLoop true registered ((inp, ev) :: rest)).1 = LoopOutcome.panicked := by
  have h1 := runIteration_true_error registered ev h
  refine ⟨h1, ?_, ?_⟩
  · rw [h1]
    intro hm
    simp only [IterResult.acts] at hm
    have := mem_loadActs hm
    simp at this
  · rw [runLoop_cons, h1]

/-- C5 witness: the empty base path (no leading separator). -/
theorem invalid_base_path_fatal_witness :
    runIteration true [] ⟨none, ⟨"addr", ""⟩⟩ LoopEvent.done
      = IterResult.panicked (loadActs ⟨none, ⟨"addr", ""⟩⟩)
    ∧ Act.startInstance ∉ (runIteration true [] ⟨none, ⟨"addr", ""⟩⟩
        LoopEvent.done).acts
    ∧ (runLoop true [] [(⟨none, ⟨"addr", ""⟩⟩, LoopEvent.done)]).1
      = LoopOutcome.panicked :=
  invalid_base_path_fatal [] ⟨none, ⟨"addr", ""⟩⟩ LoopEvent.done
    "base path must begin with the path separator" [] rfl

/-- The standalone loop can never end in a panic, whatever the inputs. -/
theorem runLoop_false_no_panic :
    ∀ (inputs : List (IterInput × LoopEvent)) (registered : List String),
      (runLoop false registered inputs).1 ≠ LoopOutcome.panicked := by
  intro inputs
  induction inputs with
  | nil => intro reg; simp [runLoop_nil]
  | cons pr rest ih =>
    intro reg
    obtain ⟨inp, ev⟩ := pr
    rw [runLoop_cons]
    cases hi : runIteration false reg inp ev with
    | continueLoop r2 acts => simpa using ih r2
    | exitLoop acts => simp
    | fatalError e acts => simp
    | panicked acts =>
      have hp : (runIteration false reg inp ev).isPanic = false := by
        rw [runIteration_false]
        exact selectStep_not_panic _ _ _
      rw [hi] at hp
      simp [IterResult.isPanic] at hp

/-- C6: a config-load failure changes an iteration only by prepending the
failure-log action: the result kind, the threaded registered set and every
other action are identical to the iteration without the load error, so a
load failure can never halt the restart loop; and whenever the iteration
reaches the select, the instance start action is among its actions. -/
theorem config_load_failure_nonfatal
    (shared : Bool) (registered : List String) (c : Config) (msg : String)
    (ev : LoopEvent) :
    runIteration shared registered ⟨some msg, c⟩ ev
      = prependLog (runIteration shared registered ⟨none, c⟩ ev)
    ∧ (reachesSelect shared ⟨some msg, c⟩ = true →
        Act.startInstance ∈
          (runIteration shared registered ⟨some msg, c⟩ ev).acts) := by
  have hsome : loadActs ⟨some msg, c⟩ = [Act.logConfigLoadError] := rfl
  have hnone : loadActs (⟨none, c⟩ : IterInput) = [] := rfl
  constructor
  · cases shared with
    | false =>
      rw [runIteration_false, runIteration_false, preActs_false, preActs_false,
        hsome, hnone, List.singleton_append, List.nil_append]
      exact selectStep_cons _ _ _
    | true =>
      cases hr : routePrefixFromBasePath c.basePath with
      | error e =>
        rw [runIteration_true_error registered ev hr,
          runIteration_true_error registered ev hr, hsome, hnone]
        rfl
      | ok p =>
        rw [runIteration_true_ok registered ev hr,
          runIteration_true_ok registered ev hr,
          preActs_true_ok registered hr, preActs_true_ok registered hr,
          hsome, hnone, List.singleton_append, List.nil_append,
          List.cons_append]
        exact selectStep_cons _ _ _
  · intro hre
    rw [runIteration_eq_selectStep shared registered _ ev hre, selectStep_acts]
    refine List.mem_append.mpr (Or.inl ?_)
    cases shared with
    | false => rw [preActs_false]; simp
    | true =>
      cases hr : routePrefixFromBasePath c.basePath with
      | error e =>
        simp only [reachesSelect, Bool.not_true, Bool.false_or] at hre
        rw [hr] at hre
        simp [exceptOk] at hre
      | ok p =>
        rw [preActs_true_ok registered hr]
        simp

/-- C6 witness at a concrete failing load in standalone mode. -/
theorem config_load_failure_nonfatal_witness :
    runIteration false [] ⟨some "yaml: bad", ⟨"addr", "/files"⟩⟩
        LoopEvent.reloadRequested
      = prependLog (runIteration false [] ⟨none, ⟨"addr", "/files"⟩⟩
          LoopEvent.reloadRequested)
    ∧ (reachesSelect false ⟨some "yaml: bad", ⟨"addr", "/files"⟩⟩ = true →
        Act.startInstance ∈
          (runIteration false [] ⟨some "yaml: bad", ⟨"addr", "/files"⟩⟩
            LoopEvent.reloadRequested).acts) :=
  config_load_failure_nonfatal false [] ⟨"addr", "/files"⟩ "yaml: bad"
    LoopEvent.reloadRequested

/-- C10: in standalone mode (nil parent router) no iteration ever performs a
`Handle` registration or mount log, the invalid-base-path panic is
unreachable — the iteration never panics and the loop outcome is never
`panicked`, whatever the base path — and the pre-select actions place the
listen-address startup log directly after the started-notification await,
the iteration being exactly the select applied to those actions. -/
theorem standalone_skips_registration
    (registered : List String) (inp : IterInput) (ev : LoopEvent) (s : String)
    (inputs : List (IterInput × LoopEvent)) :
    Act.handle s ∉ (runIteration false registered inp ev).acts
    ∧ Act.logMounted s ∉ (runIteration false registered inp ev).acts
    ∧ (runIteration false registered inp ev).isPanic = false
    ∧ (runLoop false registered inputs).1 ≠ LoopOutcome.panicked
    ∧ preActs false registered inp
      = loadActs inp ++ [Act.startInstance, Act.awaitStarted,
          Act.logListening inp.cfg.listenAddress]
    ∧ runIteration false registered inp ev
      = selectStep registered (preActs false registered inp) ev := by
  have hacts : (runIteration false registered inp ev).acts
      = preActs false registered inp ++ selectSuffix ev := by
    rw [runIteration_false, selectStep_acts]
  refine ⟨?_, ?_, ?_, runLoop_false_no_panic inputs registered,
    preActs_false registered inp, runIteration_false registered inp ev⟩
  · rw [hacts]
    intro hm
    rcases List.mem_append.mp hm with hm | hm
    · rw [preActs_false] at hm
      rcases List.mem_append.mp hm with hm | hm
      · have := mem_loadActs hm; simp at this
      · simp at hm
    · rcases mem_selectSuffix hm with h | h | h | h | h | h <;> simp at h
  · rw [hacts]
    intro hm
    rcases List.mem_append.mp hm with hm | hm
    · rw [preActs_false] at hm
      rcases List.mem_append.mp hm with hm | hm
      · have := mem_loadActs hm; simp at this
      · simp at hm
    · rcases mem_selectSuffix hm with h | h | h | h | h | h <;> simp at h
  · rw [runIteration_false]
    exact selectStep_not_panic _ _ _

/-- C10 witness: an invalid (empty) base path in standalone mode, with a
shutdown event, showing no registration, no panic, and the startup log
placed after the await. -/
theorem standalone_skips_registration_witness :
    Act.handle "/files" ∉ (runIteration false [] ⟨none, ⟨"addr", ""⟩⟩
        LoopEvent.done).acts
    ∧ Act.logMounted "/files" ∉ (runIteration false [] ⟨none, ⟨"addr", ""⟩⟩
        LoopEvent.done).acts
    ∧ (runIteration false [] ⟨none, ⟨"addr", ""⟩⟩ LoopEvent.done).isPanic = false
    ∧ (runLoop false [] [(⟨none, ⟨"addr", ""⟩⟩, LoopEvent.done)]).1
      ≠ LoopOutcome.panicked
    ∧ preActs false [] ⟨none, ⟨"addr", ""⟩⟩
      = loadActs ⟨none, ⟨"addr", ""⟩⟩ ++ [Act.startInstance, Act.awaitStarted,
          Act.logListening (⟨none, ⟨"addr", ""⟩⟩ : IterInput).cfg.listenAddress]
    ∧ runIteration false [] ⟨none, ⟨"addr", ""⟩⟩ LoopEvent.done
      = selectStep [] (preActs false [] ⟨none, ⟨"addr", ""⟩⟩) LoopEvent.done :=
  standalone_skips_registration [] ⟨none, ⟨"addr", ""⟩⟩ LoopEvent.done "/files"
    [(⟨none, ⟨"addr", ""⟩⟩, LoopEvent.done)]

/-- A route differs from itself with a trailing separator appended. -/
theorem string_ne_append_slash (p : String) : p ≠ p ++ "/" := by
  intro h
  have h2 := congrArg String.length h
  rw [String.length_append] at h2
  have h3 : ("/" : String).length = 1 := rfl
  omega

/-- Handle calls distribute over concatenated traces. -/
theorem handleCalls_append (a b : List Act) :
    handleCalls (a ++ b) = handleCalls a ++ handleCalls b := by
  simp [handleCalls]

/-- The config-refresh step performs no Handle call. -/
theorem handleCalls_loadActs (inp : IterInput) :
    handleCalls (loadActs inp) = [] := by
  unfold loadActs
  cases inp.loadErr <;> rfl

/-- No select branch performs a Handle call. -/
theorem handleCalls_selectSuffix (ev : LoopEvent) :
    handleCalls (selectSuffix ev) = [] := by
  cases ev with
  | instanceError e =>
    by_cases he : e = GoError.serverClosed <;>
      simp [selectSuffix, he, handleCalls]
  | reloadRequested => rfl
  | done => rfl

/-- The Handle calls of the registration step: none when the route is
already registered; otherwise the route, and additionally the route with a
trailing separator when it does not already end in one. -/
theorem handleCalls_registerStep (registered : List String) (p : String) :
    handleCalls (registerStep registered p).2
      = if p ∈ registered then []
        else if hasSlashSuffix p then [p] else [p, p ++ "/"] := by
  by_cases hp : p ∈ registered
  · simp [registerStep, hp, handleCalls]
  · by_cases hs : hasSlashSuffix p <;>
      simp [registerStep, hp, hs, handleCalls]

/-- Once the route is in the registered set, a run of reload iterations all
deriving that same route performs no Handle call at all. -/
theorem handleCalls_loop_registered {p : String} :
    ∀ (inputs : List IterInput) (registered : List String),
      (∀ i ∈ inputs, routePrefixFromBasePath i.cfg.basePath = Except.ok p) →
      p ∈ registered →
      handleCalls (runLoop true registered
        (inputs.map fun i => (i, LoopEvent.reloadRequested))).2 = [] := by
  intro inputs
  induction inputs with
  | nil => intro reg _ _; rfl
  | cons i rest ih =>
    intro reg hall hp
    have hr : routePrefixFromBasePath i.cfg.basePath = Except.ok p :=
      hall i (List.mem_cons_self i rest)
    have hit : runIteration true reg i LoopEvent.reloadRequested
        = IterResult.continueLoop reg
            (preActs true reg i ++ [Act.shutdownAsync]) := by
      rw [runIteration_true_ok reg _ hr]
      simp [selectStep, registerStep, hp]
    rw [List.map_cons, runLoop_cons, hit]
    have hrest := ih reg (fun j hj => hall j (List.mem_cons_of_mem i hj)) hp
    simp only [handleCalls_append, hrest, List.append_nil]
    rw [preActs_true_ok reg hr]
    simp only [handleCalls_append]
    rw [handleCalls_loadActs, handleCalls_registerStep]
    have e1 : handleCalls [Act.startInstance, Act.awaitStarted] = [] := rfl
    have e2 : handleCalls [Act.shutdownAsync] = [] := rfl
    rw [e1, e2]
    simp [hp]

/-- A run of reload iterations all deriving the same not-yet-registered
route performs exactly the first iteration's Handle calls: the route, plus
its trailing-separator variant when the route does not end in one. -/
theorem handleCalls_loop_fresh {p : String} (i : IterInput)
    (inputs : List IterInput) (registered : List String)
    (hall : ∀ j ∈ i :: inputs,
      routePrefixFromBasePath j.cfg.basePath = Except.ok p)
    (hp : p ∉ registered) :
    handleCalls (runLoop true registered
      ((i :: inputs).map fun j => (j, LoopEvent.reloadRequested))).2
      = if hasSlashSuffix p then [p] else [p, p ++ "/"] := by
  have hr : routePrefixFromBasePath i.cfg.basePath = Except.ok p :=
    hall i (List.mem_cons_self i inputs)
  have hit : runIteration true registered i LoopEvent.reloadRequested
      = IterResult.continueLoop (p :: registered)
          (preActs true registered i ++ [Act.shutdownAsync]) := by
    rw [runIteration_true_ok registered _ hr]
    simp [selectStep, registerStep, hp]
  rw [List.map_cons, runLoop_cons, hit]
  have hrest := handleCalls_loop_registered inputs (p :: registered)
    (fun j hj => hall j (List.mem_cons_of_mem i hj))
    (List.mem_cons_self p registered)
  simp only [handleCalls_append, hrest, List.append_nil]
  rw [preActs_true_ok registered hr]
  simp only [handleCalls_append]
  rw [handleCalls_loadActs, handleCalls_registerStep]
  have e1 : handleCalls [Act.startInstance, Act.awaitStarted] = [] := rfl
  have e2 : handleCalls [Act.shutdownAsync] = [] := rfl
  rw [e1, e2]
  simp [hp]

/-- C4: in shared-router mode, across any number N >= 1 of supervisor
iterations (reload cycles included) whose configured base path stays the
derived route `p`, the parent router receives the registration of `p`
exactly once; every exact pattern is registered at most once; and the
first (and only) registration also registers the trailing-separator variant
when `p` does not end in the separator — all Handle calls target the single
shared `replaceableHandler` indirection by construction. -/
theorem route_registered_at_most_once
    (bp p q : String) (inputs : List IterInput)
    (hp : routePrefixFromBasePath bp = Except.ok p)
    (hbp : ∀ i ∈ inputs, i.cfg.basePath = bp)
    (hne : inputs ≠ []) :
    handleCalls (runLoop true []
        (inputs.map fun i => (i, LoopEvent.reloadRequested))).2
      = (if hasSlashSuffix p then [p] else [p, p ++ "/"])
    ∧ (handleCalls (runLoop true []
        (inputs.map fun i => (i, LoopEvent.reloadRequested))).2).count q ≤ 1
    ∧ (handleCalls (runLoop true []
        (inputs.map fun i => (i, LoopEvent.reloadRequested))).2).count p = 1 := by
  obtain ⟨i, rest, rfl⟩ := List.exists_cons_of_ne_nil hne
  have hall : ∀ j ∈ i :: rest,
      routePrefixFromBasePath j.cfg.basePath = Except.ok p := by
    intro j hj
    rw [hbp j hj]
    exact hp
  have h1 := handleCalls_loop_fresh i rest [] hall (by simp)
  have hnp := string_ne_append_slash p
  refine ⟨h1, ?_, ?_⟩
  · rw [h1]
    by_cases hs : hasSlashSuffix p
    · simp only [hs, if_true, List.count_cons, List.count_nil]
      by_cases h1q : p = q <;> simp [h1q]
    · simp only [hs, if_false, List.count_cons, List.count_nil]
      by_cases h1q : p = q
      · subst h1q
        have h2 : ¬ (p ++ "/" = p) := fun he => hnp he.symm
        simp [List.count_cons, List.count_nil, h2]
      · by_cases h2q : p ++ "/" = q <;>
          simp [List.count_cons, List.count_nil, h1q, h2q]
  · rw [h1]
    by_cases hs : hasSlashSuffix p
    · simp [hs]
    · simp [hs, List.count_cons, List.count_nil, Ne.symm hnp]

/-- C4 witness: base path `/upload`, three reload cycles — `/upload` and
`/upload/` each registered exactly once. -/
theorem route_registered_at_most_once_witness :
    handleCalls (runLoop true []
        ([⟨none, ⟨"addr", "/upload"⟩⟩, ⟨none, ⟨"addr", "/upload"⟩⟩,
          ⟨none, ⟨"addr", "/upload"⟩⟩].map
            fun i => (i, LoopEvent.reloadRequested))).2
      = (if hasSlashSuffix "/upload" then ["/upload"]
          else ["/upload", "/upload" ++ "/"])
    ∧ (handleCalls (runLoop true []
        ([⟨none, ⟨"addr", "/upload"⟩⟩, ⟨none, ⟨"addr", "/upload"⟩⟩,
          ⟨none, ⟨"addr", "/upload"⟩⟩].map
            fun i => (i, LoopEvent.reloadRequested))).2).count "/upload/" ≤ 1
    ∧ (handleCalls (runLoop true []
        ([⟨none, ⟨"addr", "/upload"⟩⟩, ⟨none, ⟨"addr", "/upload"⟩⟩,
          ⟨none, ⟨"addr", "/upload"⟩⟩].map
            fun i => (i, LoopEvent.reloadRequested))).2).count "/upload" = 1 :=
  route_registered_at_most_once "/upload" "/upload" "/upload/"
    [⟨none, ⟨"addr", "/upload"⟩⟩, ⟨none, ⟨"addr", "/upload"⟩⟩,
      ⟨none, ⟨"addr", "/upload"⟩⟩] rfl (by decide) (by simp)

/-- C7 counterexample: with one undelivered intent of a kind pending in
that kind's capacity-1 channel, the plain send performed by `signalHandler`
for a new occurrence of that kind blocks the signal-handling goroutine,
whereas the spec's claimed drop-on-full semantics would drop it: intent
delivery can block. -/
theorem intent_send_blocks_counterexample :
    signalHandlerSend 1 = SendOutcome.blocked ∧
    specIntentSend 1 = SpecSendOutcome.dropped := ⟨rfl, rfl⟩

/-- C7 amended: an intent send is delivered without blocking exactly when
the kind's capacity-1 buffer is empty; when a previously delivered intent
of the same kind is still unconsumed, a new occurrence blocks the
signal-handling worker until the supervisor consumes the pending one — it
is not dropped. -/
theorem intent_send_semantics (pending : Nat) :
    signalHandlerSend pending
      = (if pending = 0 then SendOutcome.delivered else SendOutcome.blocked) := by
  unfold signalHandlerSend chanSend intentChanCap
  simp [Nat.lt_one_iff]

/-- C8: the switch maps the hang-up kind to a Reload intent and each of the
two terminate kinds to a Shutdown intent; Reload arises exactly from
SIGHUP, Shutdown exactly from SIGINT or SIGTERM (so the two terminate kinds
are semantically identical), and over any sequence of received signals the
translation is exactly this mapping, pointwise — no other mapping occurs. -/
theorem signal_mapping (sigs : List Sig) :
    signalIntent Sig.SIGHUP = Intent.Reload
    ∧ signalIntent Sig.SIGINT = Intent.Shutdown
    ∧ signalIntent Sig.SIGTERM = Intent.Shutdown
    ∧ (∀ s, signalIntent s = Intent.Reload ↔ s = Sig.SIGHUP)
    ∧ (∀ s, signalIntent s = Intent.Shutdown ↔
        (s = Sig.SIGINT ∨ s = Sig.SIGTERM))
    ∧ sigs.map signalIntent = sigs.map fun s =>
        if s = Sig.SIGHUP then Intent.Reload else Intent.Shutdown := by
  refine ⟨rfl, rfl, rfl, ?_, ?_, ?_⟩
  · intro s; cases s <;> simp [signalIntent]
  · intro s; cases s <;> simp [signalIntent]
  · induction sigs with
    | nil => rfl
    | cons a t ih => cases a <;> simp [signalIntent, ih]

/-- Every observed delegate is the initial slot or a whole swapped value. -/
theorem observed_old_or_new {α : Type} :
    ∀ (l : List (IndirOp α)) (slot v : Option α), v ∈ observed slot l →
      v = slot ∨ ∃ g, IndirOp.swap g ∈ l ∧ v = some g := by
  intro l
  induction l with
  | nil => intro slot v hv; simp [observed] at hv
  | cons op rest ih =>
    intro slot v hv
    cases op with
    | swap g =>
      simp only [observed] at hv
      rcases ih (some g) v hv with rfl | ⟨g2, hg2, rfl⟩
      · exact Or.inr ⟨g, List.mem_cons_self _ _, rfl⟩
      · exact Or.inr ⟨g2, List.mem_cons_of_mem _ hg2, rfl⟩
    | delegateCall =>
      simp only [observed] at hv
      rcases List.mem_cons.mp hv with rfl | hv
      · exact Or.inl rfl
      · rcases ih slot v hv with rfl | ⟨g2, hg2, rfl⟩
        · exact Or.inl rfl
        · exact Or.inr ⟨g2, List.mem_cons_of_mem _ hg2, rfl⟩

/-- Observations distribute over a split of the operation sequence. -/
theorem observed_append {α : Type} (l1 l2 : List (IndirOp α)) :
    ∀ slot, observed slot (l1 ++ l2)
      = observed slot l1 ++ observed (finalSlot slot l1) l2 := by
  induction l1 with
  | nil => intro slot; simp [observed, finalSlot]
  | cons op rest ih =>
    intro slot
    cases op with
    | swap g => simp [observed, finalSlot, ih]
    | delegateCall => simp [observed, finalSlot, ih]

/-- Once the slot holds a delegate it never empties again: every later
observation is a whole delegate. -/
theorem observed_isSome {α : Type} :
    ∀ (l : List (IndirOp α)) (slot : Option α), slot.isSome = true →
      ∀ v ∈ observed slot l, v.isSome = true := by
  intro l
  induction l with
  | nil => intro slot h v hv; simp [observed] at hv
  | cons op rest ih =>
    intro slot h v hv
    cases op with
    | swap g =>
      simp only [observed] at hv
      exact ih (some g) rfl v hv
    | delegateCall =>
      simp only [observed] at hv
      rcases List.mem_cons.mp hv with rfl | hv
      · exact h
      · exact ih slot h v hv

/-- C9: over any interleaving `pre ++ swap h :: post` of concurrent
delegate calls and swaps — each one atomic step, as the spec's
HandlerIndirection contract states — every delegation observes either the
initial slot or the whole delegate installed by some swap, never a torn
value; the observations split exactly around the swap; and every delegate
call after a swap observes a non-null delegate. ReplaceableHandler is
modelled from the spec. -/
theorem indirection_swap_consistent {α : Type} (slot0 v w : Option α)
    (pre post : List (IndirOp α)) (h : α)
    (hv : v ∈ observed slot0 (pre ++ IndirOp.swap h :: post))
    (hw : w ∈ observed (some h) post) :
    (v = slot0 ∨ ∃ g, IndirOp.swap g ∈ pre ++ IndirOp.swap h :: post
        ∧ v = some g)
    ∧ observed slot0 (pre ++ IndirOp.swap h :: post)
        = observed slot0 pre ++ observed (some h) post
    ∧ w.isSome = true := by
  refine ⟨observed_old_or_new _ _ _ hv, ?_,
    observed_isSome post (some h) rfl w hw⟩
  rw [observed_append]
  simp only [observed]

/-- C9 witness: a delegate call before and after one concrete swap. -/
theorem indirection_swap_consistent_witness :
    ((none : Option Nat) = none ∨ ∃ g, IndirOp.swap g ∈
        [IndirOp.delegateCall] ++ IndirOp.swap 7 :: [IndirOp.delegateCall]
        ∧ (none : Option Nat) = some g)
    ∧ observed (none : Option Nat)
        ([IndirOp.delegateCall] ++ IndirOp.swap 7 :: [IndirOp.delegateCall])
        = observed (none : Option Nat) [IndirOp.delegateCall]
          ++ observed (some 7) [IndirOp.delegateCall]
    ∧ (some 7 : Option Nat).isSome = true :=
  indirection_swap_consistent none none (some 7) [IndirOp.delegateCall]
    [IndirOp.delegateCall] 7 (by decide) (by decide)
